import Mathlib

/-!
# Verification of `console-tree.py`

A shallow embedding of the tree-rendering program `src/console-tree.py`.
Python strings are modelled as `List Char` (a cell), the mutable table of
cells as `List (List (List Char))` threaded functionally through each pass,
and every Python exception as a constructor of `RenderError` carried in
`Except`.  Python raises `IndexError` on out-of-range indexing; the places
where the source can actually hit an out-of-range index (`cells[0]` and
`row[j]` in `fit_column_width`) are modelled explicitly with
`RenderError.indexError`, while the remaining accesses, which are in range
for every table those functions receive, use total `getD` access with the
empty cell as default.  `float` values behave exactly like `int` values in
the source (both hit the same `isinstance` branch and are stringified), so
the scalar constructors here are `int`, `bool` and `str`; `null` stands for
`None` and every other unsupported Python value.
-/

/-- A Python string: a list of characters. -/
abbrev Cell := List Char

/-- A row of the table of cells. -/
abbrev Row := List Cell

/-- The table of cells (`cells` in the source): a list of rows. -/
abbrev Table := List Row

/-- The JSON-like value model consumed by the program: scalars
(`int`/`bool`/`str`), lists, dicts (insertion-ordered key/value pairs) and
`null` for any unsupported value such as Python `None`. -/
inductive TreeObject where
  | int (n : Int)
  | bool (b : Bool)
  | str (s : Cell)
  | list (items : List TreeObject)
  | dict (entries : List (Cell × TreeObject))
  | null
deriving Repr

/-- Every exception the program can raise, one constructor per raise site
(plus the two index errors Python raises implicitly). -/
inductive RenderError where
  /-- `ValueError("Tree items cannot be empty strings")` in `tabularize_tree`. -/
  | emptyScalar
  /-- `TypeError` from the final `else` branch of `tabularize_tree`. -/
  | unsupportedType
  /-- `ValueError` from `max()` over the empty row list (empty dict). -/
  | maxEmpty
  /-- `ValueError("Tree must have a root")` in `repr_tree`. -/
  | missingRoot
  /-- `TypeError`: `len()` applied to an `int`/`bool`/`None` root. -/
  | lenTypeError
  /-- `IndexError` from `cells[0]` or `row[j]` in `fit_column_width`. -/
  | indexError
  /-- `ValueError` in `connect`: child row not strictly below the parent. -/
  | invalidConnection
  /-- `RuntimeError` in `draw`: VERTICAL drawn over HORIZONTAL. -/
  | vertOverHoriz
  /-- `RuntimeError` in `draw`: HORIZONTAL drawn over a non-empty cell. -/
  | horizOverNonEmpty
deriving DecidableEq, Repr

/-- `JUNCTION = "├"`. -/
def JUNCTION : Char := '├'

/-- `VERTICAL = "│"`. -/
def VERTICAL : Char := '│'

/-- `CORNER = "└"`. -/
def CORNER : Char := '└'

/-- `HORIZONTAL = "─"`. -/
def HORIZONTAL : Char := '─'

/-- `EMPTY_CELL = ""`. -/
def EMPTY_CELL : Cell := []

/-- Python `s.strip() == ""`: the string is empty or all-whitespace. -/
def isBlank (s : Cell) : Bool := s.all Char.isWhitespace

/-- `cells[i][j]` (total; every use in the source is in range). -/
def cellAt (cells : Table) (i j : Nat) : Cell := (cells.getD i []).getD j []

/-- `cells[i][j] = v` (no-op out of range; every use is in range). -/
def setCell (cells : Table) (i j : Nat) (v : Cell) : Table :=
  cells.set i ((cells.getD i []).set j v)

/-- Python `str()` of the scalar leaves the program accepts. -/
def pyStr : TreeObject → Cell
  | .int n => (toString n).data
  | .bool b => if b then "True".data else "False".data
  | .str s => s
  | _ => []

mutual

/-- `tabularize_tree` from the source: flattens the tree into a (possibly
jagged) table of cells; only the dict branch pads its rows to a rectangle.
The helper functions below are the source's three accumulation loops. -/
def tabularize_tree (t : TreeObject) (simple_mode : Bool) :
    Except RenderError Table :=
  match t with
  | .int n => .ok [[pyStr (.int n)]]
  | .bool b => .ok [[pyStr (.bool b)]]
  | .str s =>
      if isBlank s then .error .emptyScalar else .ok [[s]]
  | .list items =>
      if simple_mode then tabListSimple items simple_mode
      else tabListIndexed items simple_mode 0
  | .dict entries => do
      let cells ← tabDict entries simple_mode
      -- `max(len(row) for row in cells)` raises on the empty list
      if cells.length = 0 then .error .maxEmpty
      else
        let m := cells.foldl (fun acc row => max acc row.length) 0
        .ok (cells.map (fun row => row ++ List.replicate (m - row.length) EMPTY_CELL))
  | .null => .error .unsupportedType

/-- The `simple_mode` loop of the list branch: concatenate the rows of every
item's tabularization. -/
def tabListSimple (items : List TreeObject) (simple_mode : Bool) :
    Except RenderError Table :=
  match items with
  | [] => .ok []
  | oi :: rest => do
      let t ← tabularize_tree oi simple_mode
      let r ← tabListSimple rest simple_mode
      .ok (t ++ r)

/-- The indexed loop of the list branch: one row `[str(i)]` per item, then
the item's rows each prefixed by an empty cell. -/
def tabListIndexed (items : List TreeObject) (simple_mode : Bool) (i : Nat) :
    Except RenderError Table :=
  match items with
  | [] => .ok []
  | oi :: rest => do
      let t ← tabularize_tree oi simple_mode
      let r ← tabListIndexed rest simple_mode (i + 1)
      .ok (([[(toString i).data]] ++ t.map (fun row => EMPTY_CELL :: row)) ++ r)

/-- The dict branch loop: one row `[parent]` per entry, then the children's
rows each prefixed by an empty cell. -/
def tabDict (entries : List (Cell × TreeObject)) (simple_mode : Bool) :
    Except RenderError Table :=
  match entries with
  | [] => .ok []
  | (parent, children) :: rest => do
      let t ← tabularize_tree children simple_mode
      let r ← tabDict rest simple_mode
      .ok (([[parent]] ++ t.map (fun row => EMPTY_CELL :: row)) ++ r)

end

/-- `draw` from the source, on a single cell of the table.  The source's
glyphs are one-character strings; `element` is that character.  The first
character inspection `cells[i][j][0]` only happens on non-blank cells. -/
def draw (cells : Table) (element : Char) (i j : Nat) :
    Except RenderError Table :=
  let cell := cellAt cells i j
  let cell_len := cell.length
  if element = VERTICAL then
    if isBlank cell then .ok (setCell cells i j (VERTICAL :: cell.tail))
    else if cell.headD ' ' = VERTICAL then
      .ok (setCell cells i j (VERTICAL :: cell.tail))
    else if cell.headD ' ' = CORNER then
      .ok (setCell cells i j (JUNCTION :: cell.tail))
    else if cell.headD ' ' = JUNCTION then .ok cells
    else .error .vertOverHoriz
  else if element = HORIZONTAL then
    if isBlank cell then
      .ok (setCell cells i j (CORNER :: List.replicate (cell_len - 1) HORIZONTAL))
    else .error .horizOverNonEmpty
  else .ok cells

/-- `connect` from the source: verticals strictly between the parent row and
the child row, then a horizontal segment at the child row. -/
def connect (cells : Table) (parent_i parent_j child_i : Nat) :
    Except RenderError Table :=
  if child_i ≤ parent_i then .error .invalidConnection
  else do
    let cells2 ← (List.range' (parent_i + 1) (child_i - (parent_i + 1))).foldlM
      (fun acc i => draw acc VERTICAL i parent_j) cells
    draw cells2 HORIZONTAL child_i parent_j

/-- `find_parents`: rows whose cell in column `j` is non-blank. -/
def find_parents (cells : Table) (j : Nat) : List Nat :=
  (List.range cells.length).filter (fun i => !isBlank (cellAt cells i j))

/-- The scan loop of `find_children`: walk the given rows, stop at the first
non-blank cell in column `j`, collect rows whose column `j + 1` is non-blank. -/
def findChildrenScan (cells : Table) (j : Nat) (rows : List Nat) : List Nat :=
  match rows with
  | [] => []
  | r :: rest =>
      if !isBlank (cellAt cells r j) then []
      else if !isBlank (cellAt cells r (j + 1)) then
        r :: findChildrenScan cells j rest
      else findChildrenScan cells j rest

/-- `find_children` from the source. -/
def find_children (cells : Table) (i j : Nat) : List Nat :=
  findChildrenScan cells j (List.range' (i + 1) (cells.length - (i + 1)))

/-- Python `"{0:<w}".format(s)`: left-justify with space padding. -/
def ljust (s : Cell) (w : Nat) : Cell := s ++ List.replicate (w - s.length) ' '

/-- The maximal cell length in column `j` (the source folds `max` over the
rows starting from `0`). -/
def colMax (cells : Table) (j : Nat) : Nat :=
  cells.foldl (fun acc row => max acc (row.getD j []).length) 0

/-- `fit_column_width` from the source.  `cells[0]` raises `IndexError` on
an empty table, and `row[j]` raises `IndexError` whenever some row is
shorter than the first one; otherwise each row is rewritten by
`zip(col_formats, row)`, which truncates it to the first row's length. -/
def fit_column_width (cells : Table) : Except RenderError Table :=
  if cells.length = 0 then .error .indexError
  else
    let w := (cells.getD 0 []).length
    if cells.all (fun row => w ≤ row.length) then
      let widths := (List.range w).map (fun j => colMax cells j)
      .ok (cells.map (fun row => (widths.zip row).map (fun p => ljust p.2 p.1)))
    else .error .indexError

/-- One parent of the connector loop in `repr_tree`: find its children in
the current table and connect each in order. -/
def processParent (cells : Table) (j parent_i : Nat) :
    Except RenderError Table :=
  (find_children cells parent_i j).foldlM
    (fun acc child_i => connect acc parent_i j child_i) cells

/-- One column of the connector loop in `repr_tree`: the parents are found
once per column, before any drawing in it. -/
def processColumn (cells : Table) (j : Nat) : Except RenderError Table :=
  (find_parents cells j).foldlM (fun acc p => processParent acc j p) cells

/-- The connector loop of `repr_tree`: every column except the last. -/
def connectAll (cells : Table) : Except RenderError Table :=
  (List.range ((cells.getD 0 []).length - 1)).foldlM
    (fun acc j => processColumn acc j) cells

/-- Python `len(tree_object)`: defined for `str`, `list` and `dict`, a
`TypeError` for the other values. -/
def pyLen : TreeObject → Option Nat
  | .str s => some s.length
  | .list items => some items.length
  | .dict entries => some entries.length
  | _ => none

/-- `"\n".join("".join(row) for row in cells)`. -/
def joinRows (cells : Table) : String :=
  String.mk (List.intercalate ['\n'] (cells.map List.flatten))

/-- `repr_tree` from the source: the root check (`len(tree_object) != 1`),
tabularization, the trivial single-row short-circuit, column fitting and
the connector loop. -/
def repr_tree (t : TreeObject) (simple_mode : Bool) :
    Except RenderError String :=
  match pyLen t with
  | none => .error .lenTypeError
  | some n =>
    if n ≠ 1 then .error .missingRoot
    else do
      let cells ← tabularize_tree t simple_mode
      if cells.length = 1 then .ok (String.mk (cellAt cells 0 0))
      else do
        let cells ← fit_column_width cells
        let cells ← connectAll cells
        .ok (joinRows cells)


/-- A cell the `draw` primitive accepts for a VERTICAL stroke: blank, or
already carrying a connector glyph as its first character. -/
def drawnSafe (c : Cell) : Prop :=
  isBlank c = true ∨ c.headD ' ' = VERTICAL ∨ c.headD ' ' = CORNER ∨
    c.headD ' ' = JUNCTION

/-- The call failed with some exception. -/
def isError {α : Type} : Except RenderError α → Bool
  | .error _ => true
  | .ok _ => false

/-- The successful value of a call, with a fallback for the error case
(used only to phrase statements about calls proved successful). -/
def okOr {α : Type} (x : Except RenderError α) (d : α) : α :=
  match x with
  | .ok a => a
  | .error _ => d

mutual

/-- A node satisfying `P` occurs somewhere in the tree. -/
def containsWhere (P : TreeObject → Bool) : TreeObject → Bool
  | .list items => P (.list items) || containsWhereList P items
  | .dict entries => P (.dict entries) || containsWhereDict P entries
  | t => P t

def containsWhereList (P : TreeObject → Bool) : List TreeObject → Bool
  | [] => false
  | x :: xs => containsWhere P x || containsWhereList P xs

def containsWhereDict (P : TreeObject → Bool) :
    List (Cell × TreeObject) → Bool
  | [] => false
  | kv :: xs => containsWhere P kv.2 || containsWhereDict P xs

end

/-- A string leaf whose text is empty or all-whitespace (the node
`tabularize_tree` rejects with `EmptyScalar`). -/
def isBlankStrNode : TreeObject → Bool
  | .str s => isBlank s
  | _ => false

/-- An unsupported value (Python `None` or any other type outside
scalar/list/dict). -/
def isNullNode : TreeObject → Bool
  | .null => true
  | _ => false

/-- A mapping with zero entries (the node whose `max()` call fails). -/
def isEmptyDictNode : TreeObject → Bool
  | .dict [] => true
  | _ => false

/-- The tree contains an empty or all-whitespace string leaf. -/
def hasBlankStrLeaf (t : TreeObject) : Bool := containsWhere isBlankStrNode t

/-- The tree contains an unsupported (null) value. -/
def hasNullValue (t : TreeObject) : Bool := containsWhere isNullNode t

/-- The tree contains a mapping with zero entries. -/
def hasEmptyMapping (t : TreeObject) : Bool := containsWhere isEmptyDictNode t

/-! ## Basic facts about cell access and update -/

theorem cellAt_eq_getElem (g : Table) (a b : Nat) :
    cellAt g a b = ((g[a]?.getD [])[b]?).getD [] := by
  simp [cellAt, List.getD_eq_getElem?_getD]

theorem cellAt_setCell_ne (g : Table) (i j : Nat) (v : Cell) (a b : Nat)
    (h : a ≠ i ∨ b ≠ j) : cellAt (setCell g i j v) a b = cellAt g a b := by
  rw [cellAt_eq_getElem, cellAt_eq_getElem]
  unfold setCell
  rcases h with h | h
  · rw [List.getElem?_set_ne (fun hc => h hc.symm)]
  · by_cases hai : a = i
    · subst hai
      rw [List.getElem?_set]
      by_cases hlen : a < g.length
      · rw [if_pos rfl, if_pos hlen, Option.getD_some]
        rw [List.getElem?_set_ne (fun hc => h hc.symm)]
        rw [List.getD_eq_getElem?_getD]
      · rw [if_pos rfl, if_neg hlen]
        have hg : g[a]? = none := List.getElem?_eq_none (Nat.le_of_not_lt hlen)
        simp [hg]
    · rw [List.getElem?_set_ne (fun hc => hai hc.symm)]

theorem cellAt_setCell_self_or (g : Table) (i j : Nat) (v : Cell) :
    cellAt (setCell g i j v) i j = v ∨
      cellAt (setCell g i j v) i j = cellAt g i j := by
  rw [cellAt_eq_getElem, cellAt_eq_getElem]
  unfold setCell
  by_cases hi : i < g.length
  · rw [List.getElem?_set_self hi, Option.getD_some]
    by_cases hj : j < (g.getD i []).length
    · left
      rw [List.getD_eq_getElem?_getD] at hj ⊢
      rw [List.getElem?_set_self hj, Option.getD_some]
    · right
      rw [List.getElem?_set]
      rw [if_pos rfl, if_neg hj]
      rw [List.getD_eq_getElem?_getD] at hj
      rw [List.getElem?_eq_none (Nat.le_of_not_lt hj)]
  · right
    have hs : g.set i ((g.getD i []).set j v) = g :=
      List.set_eq_of_length_le (Nat.le_of_not_lt hi)
    rw [hs]

/-! ## Equations for the `draw` primitive -/

theorem draw_vert_blank (g : Table) (i j : Nat)
    (hb : isBlank (cellAt g i j) = true) :
    draw g VERTICAL i j =
      .ok (setCell g i j (VERTICAL :: (cellAt g i j).tail)) := by
  simp only [draw]
  rw [if_true, if_pos hb]

theorem draw_vert_vert (g : Table) (i j : Nat)
    (hb : isBlank (cellAt g i j) = false)
    (hh : (cellAt g i j).headD ' ' = VERTICAL) :
    draw g VERTICAL i j =
      .ok (setCell g i j (VERTICAL :: (cellAt g i j).tail)) := by
  simp only [draw]
  rw [if_true, if_neg (by rw [hb]; exact Bool.false_ne_true), if_pos hh]

theorem draw_vert_corner (g : Table) (i j : Nat)
    (hb : isBlank (cellAt g i j) = false)
    (hh : (cellAt g i j).headD ' ' = CORNER) :
    draw g VERTICAL i j =
      .ok (setCell g i j (JUNCTION :: (cellAt g i j).tail)) := by
  simp only [draw]
  rw [if_true, if_neg (by rw [hb]; exact Bool.false_ne_true),
    if_neg (by rw [hh]; decide), if_pos hh]

theorem draw_vert_junction (g : Table) (i j : Nat)
    (hb : isBlank (cellAt g i j) = false)
    (hh : (cellAt g i j).headD ' ' = JUNCTION) :
    draw g VERTICAL i j = .ok g := by
  simp only [draw]
  rw [if_true, if_neg (by rw [hb]; exact Bool.false_ne_true),
    if_neg (by rw [hh]; decide), if_neg (by rw [hh]; decide), if_pos hh]

theorem draw_horiz_blank (g : Table) (i j : Nat)
    (hb : isBlank (cellAt g i j) = true) :
    draw g HORIZONTAL i j =
      .ok (setCell g i j
        (CORNER :: List.replicate ((cellAt g i j).length - 1) HORIZONTAL)) := by
  simp only [draw]
  rw [if_neg (by decide), if_pos hb, if_true]

/-! ## The `draw` primitive succeeds under its contract -/

theorem draw_vert_ok (g : Table) (i j : Nat) (hs : drawnSafe (cellAt g i j)) :
    ∃ g2, draw g VERTICAL i j = .ok g2 ∧
      (∀ a b, (a ≠ i ∨ b ≠ j) → cellAt g2 a b = cellAt g a b) ∧
      drawnSafe (cellAt g2 i j) := by
  by_cases hb : isBlank (cellAt g i j)
  · refine ⟨_, draw_vert_blank g i j hb,
      fun a b h => cellAt_setCell_ne g i j _ a b h, ?_⟩
    rcases cellAt_setCell_self_or g i j (VERTICAL :: (cellAt g i j).tail)
      with h | h
    · rw [h]; right; left; rfl
    · rw [h]; exact Or.inl hb
  · have hbf : isBlank (cellAt g i j) = false := by
      exact Bool.of_not_eq_true hb
    rcases hs with hs | hs | hs | hs
    · exact absurd hs hb
    · refine ⟨_, draw_vert_vert g i j hbf hs,
        fun a b h => cellAt_setCell_ne g i j _ a b h, ?_⟩
      rcases cellAt_setCell_self_or g i j (VERTICAL :: (cellAt g i j).tail)
        with h | h
      · rw [h]; right; left; rfl
      · rw [h]; right; left; exact hs
    · refine ⟨_, draw_vert_corner g i j hbf hs,
        fun a b h => cellAt_setCell_ne g i j _ a b h, ?_⟩
      rcases cellAt_setCell_self_or g i j (JUNCTION :: (cellAt g i j).tail)
        with h | h
      · rw [h]; right; right; right; rfl
      · rw [h]; right; right; left; exact hs
    · exact ⟨g, draw_vert_junction g i j hbf hs, fun a b _ => rfl,
        Or.inr (Or.inr (Or.inr hs))⟩

theorem draw_horiz_ok (g : Table) (i j : Nat)
    (hb : isBlank (cellAt g i j) = true) :
    ∃ g2, draw g HORIZONTAL i j = .ok g2 ∧
      (∀ a b, (a ≠ i ∨ b ≠ j) → cellAt g2 a b = cellAt g a b) ∧
      drawnSafe (cellAt g2 i j) := by
  refine ⟨_, draw_horiz_blank g i j hb,
    fun a b h => cellAt_setCell_ne g i j _ a b h, ?_⟩
  rcases cellAt_setCell_self_or g i j
    (CORNER :: List.replicate ((cellAt g i j).length - 1) HORIZONTAL)
    with h | h
  · rw [h]; right; right; left; rfl
  · rw [h]; exact Or.inl hb

/-! ## A generic invariant lemma for error-monad folds -/

theorem foldlM_ok_of_inv {α : Type} (P : Table → Prop)
    (f : Table → α → Except RenderError Table) :
    ∀ (l : List α),
      (∀ s a, a ∈ l → P s → ∃ s2, f s a = .ok s2 ∧ P s2) →
      ∀ s, P s → ∃ s2, l.foldlM f s = .ok s2 ∧ P s2 := by
  intro l
  induction l with
  | nil => exact fun _ s hs => ⟨s, rfl, hs⟩
  | cons a l ih =>
    intro hstep s hs
    obtain ⟨s1, hf, hP1⟩ := hstep s a (List.mem_cons_self a l) hs
    obtain ⟨s2, hfold, hP2⟩ :=
      ih (fun s3 a3 ha3 hs3 => hstep s3 a3 (List.mem_cons_of_mem a ha3)
        hs3) s1 hP1
    refine ⟨s2, ?_, hP2⟩
    rw [List.foldlM_cons, hf]
    simpa [Except.bind] using hfold

/-! ## Facts about the `find_children` scan -/

theorem findChildrenScan_mem (g : Table) (j : Nat) :
    ∀ (n a c : Nat), c ∈ findChildrenScan g j (List.range' a n) →
      a ≤ c ∧ c < a + n ∧
        ∀ r, a ≤ r → r ≤ c → isBlank (cellAt g r j) = true := by
  intro n
  induction n with
  | zero => intro a c hc; simp [findChildrenScan] at hc
  | succ n ih =>
    intro a c hc
    rw [List.range'_succ] at hc
    unfold findChildrenScan at hc
    by_cases hba : isBlank (cellAt g a j)
    · rw [if_neg (by simp [hba])] at hc
      by_cases hch : isBlank (cellAt g a (j + 1))
      · rw [if_neg (by simp [hch])] at hc
        obtain ⟨h1, h2, h3⟩ := ih (a + 1) c hc
        exact ⟨Nat.le_of_succ_le h1, by omega, fun r hr1 hr2 => by
          rcases Nat.eq_or_lt_of_le hr1 with h | h
          · rw [← h]; exact hba
          · exact h3 r h hr2⟩
      · rw [if_pos (by simp [hch])] at hc
        rcases List.mem_cons.mp hc with h | h
        · refine ⟨by omega, by omega, fun r hr1 hr2 => ?_⟩
          have hra : r = a := by omega
          rw [hra]; exact hba
        · obtain ⟨h1, h2, h3⟩ := ih (a + 1) c h
          exact ⟨Nat.le_of_succ_le h1, by omega, fun r hr1 hr2 => by
            rcases Nat.eq_or_lt_of_le hr1 with h4 | h4
            · rw [← h4]; exact hba
            · exact h3 r h4 hr2⟩
    · rw [if_pos (by simp [hba])] at hc
      simp at hc

theorem findChildrenScan_pairwise (g : Table) (j : Nat) :
    ∀ (n a : Nat),
      (findChildrenScan g j (List.range' a n)).Pairwise (· < ·) := by
  intro n
  induction n with
  | zero => intro a; simp [findChildrenScan]
  | succ n ih =>
    intro a
    rw [List.range'_succ]
    unfold findChildrenScan
    by_cases hba : isBlank (cellAt g a j)
    · rw [if_neg (by simp [hba])]
      by_cases hch : isBlank (cellAt g a (j + 1))
      · rw [if_neg (by simp [hch])]
        exact ih (a + 1)
      · rw [if_pos (by simp [hch])]
        rw [List.pairwise_cons]
        refine ⟨fun c hc => ?_, ih (a + 1)⟩
        have := (findChildrenScan_mem g j n (a + 1) c hc).1
        omega
    · rw [if_pos (by simp [hba])]
      exact List.Pairwise.nil

theorem find_children_mem (g : Table) (p j c : Nat)
    (hc : c ∈ find_children g p j) :
    p < c ∧ ∀ r, p < r → r ≤ c → isBlank (cellAt g r j) = true := by
  unfold find_children at hc
  obtain ⟨h1, _, h3⟩ := findChildrenScan_mem g j _ (p + 1) c hc
  exact ⟨h1, fun r hr1 hr2 => h3 r hr1 hr2⟩

theorem find_children_pairwise (g : Table) (p j : Nat) :
    (find_children g p j).Pairwise (· < ·) := by
  unfold find_children
  exact findChildrenScan_pairwise g j _ (p + 1)

/-! ## `connect` succeeds under its contract -/

theorem connect_ok (g : Table) (p j c : Nat) (hpc : p < c)
    (hsafe : ∀ r, p < r → r < c → drawnSafe (cellAt g r j))
    (hblank : isBlank (cellAt g c j) = true) :
    ∃ g2, connect g p j c = .ok g2 ∧
      (∀ a b, (b ≠ j ∨ a ≤ p ∨ c < a) → cellAt g2 a b = cellAt g a b) ∧
      (∀ r, p < r → r ≤ c → drawnSafe (cellAt g2 r j)) := by
  have hnc : ¬(c ≤ p) := Nat.not_le_of_lt hpc
  obtain ⟨s2, hfold, hP⟩ :=
    foldlM_ok_of_inv
      (fun s =>
        (∀ a b, (b ≠ j ∨ a ≤ p ∨ c ≤ a) → cellAt s a b = cellAt g a b) ∧
        (∀ r, p < r → r < c → drawnSafe (cellAt s r j)))
      (fun acc i => draw acc VERTICAL i j)
      (List.range' (p + 1) (c - (p + 1)))
      (by
        intro s a ha hs
        have hmem := List.mem_range'_1.mp ha
        have hap : p < a := hmem.1
        have hac : a < c := by omega
        obtain ⟨s2, hdraw, hframe, hpost⟩ :=
          draw_vert_ok s a j (hs.2 a hap hac)
        refine ⟨s2, hdraw, fun a2 b2 h2 => ?_, fun r hr1 hr2 => ?_⟩
        · have hne : a2 ≠ a ∨ b2 ≠ j := by
            rcases h2 with h2 | h2 | h2
            · exact Or.inr h2
            · exact Or.inl (by omega)
            · exact Or.inl (by omega)
          rw [hframe a2 b2 hne]
          exact hs.1 a2 b2 h2
        · by_cases hra : r = a
          · subst hra; exact hpost
          · rw [hframe r j (Or.inl hra)]
            exact hs.2 r hr1 hr2)
      g ⟨fun a b _ => rfl, hsafe⟩
  have hc2 : cellAt s2 c j = cellAt g c j :=
    hP.1 c j (Or.inr (Or.inr (Nat.le_refl c)))
  obtain ⟨g2, hdraw2, hframe2, hpost2⟩ :=
    draw_horiz_ok s2 c j (by rw [hc2]; exact hblank)
  refine ⟨g2, ?_, fun a b h => ?_, fun r hr1 hr2 => ?_⟩
  · unfold connect
    rw [if_neg hnc, hfold]
    simpa [Except.bind] using hdraw2
  · have hne : a ≠ c ∨ b ≠ j := by
      rcases h with h | h | h
      · exact Or.inr h
      · exact Or.inl (by omega)
      · exact Or.inl (by omega)
    rw [hframe2 a b hne]
    refine hP.1 a b ?_
    rcases h with h | h | h
    · exact Or.inl h
    · exact Or.inr (Or.inl h)
    · exact Or.inr (Or.inr (Nat.le_of_lt h))
  · by_cases hrc : r = c
    · subst hrc; exact hpost2
    · rw [hframe2 r j (Or.inl hrc)]
      exact hP.2 r hr1 (by omega)

/-! ## The per-parent connector loop succeeds and only touches cells that
were blank in column `j` when the parent's children were found -/

theorem children_fold_ok (g : Table) (p j : Nat) :
    ∀ (cs : List Nat) (s : Table) (m : Nat),
      (∀ c ∈ cs, m < c ∧
        ∀ r, p < r → r ≤ c → isBlank (cellAt g r j) = true) →
      cs.Pairwise (· < ·) →
      p ≤ m →
      (∀ a b, (b ≠ j ∨ a ≤ p ∨ m < a) → cellAt s a b = cellAt g a b) →
      (∀ r, p < r → r ≤ m → drawnSafe (cellAt s r j)) →
      (∀ r, p < r → r ≤ m → isBlank (cellAt g r j) = true) →
      ∃ s2 m2,
        cs.foldlM (fun acc c => connect acc p j c) s = .ok s2 ∧ p ≤ m2 ∧
        (∀ a b, (b ≠ j ∨ a ≤ p ∨ m2 < a) → cellAt s2 a b = cellAt g a b) ∧
        (∀ r, p < r → r ≤ m2 → isBlank (cellAt g r j) = true) := by
  intro cs
  induction cs with
  | nil =>
    intro s m _ _ hm hF _ hB
    exact ⟨s, m, rfl, hm, hF, hB⟩
  | cons c cs ih =>
    intro s m hcs hpw hm hF hS hB
    obtain ⟨hmc, hblc⟩ := hcs c (List.mem_cons_self c cs)
    have hpc : p < c := Nat.lt_of_le_of_lt hm hmc
    obtain ⟨g2, hcg2, hframe2, hsafe2⟩ :=
      connect_ok s p j c hpc
        (by
          intro r hr1 hr2
          by_cases hrm : r ≤ m
          · exact hS r hr1 hrm
          · rw [hF r j (Or.inr (Or.inr (Nat.lt_of_not_le hrm)))]
            exact Or.inl (hblc r hr1 (Nat.le_of_lt hr2)))
        (by
          rw [hF c j (Or.inr (Or.inr hmc))]
          exact hblc c hpc (Nat.le_refl c))
    obtain ⟨s2, m2, hfold2, hm2, hframe3, hblank3⟩ :=
      ih g2 c
        (fun c2 hc2 =>
          ⟨(List.pairwise_cons.mp hpw).1 c2 hc2,
            (hcs c2 (List.mem_cons_of_mem c hc2)).2⟩)
        (List.pairwise_cons.mp hpw).2
        (Nat.le_of_lt hpc)
        (by
          intro a b hab
          rw [hframe2 a b hab]
          refine hF a b ?_
          rcases hab with h | h | h
          · exact Or.inl h
          · exact Or.inr (Or.inl h)
          · exact Or.inr (Or.inr (Nat.lt_trans hmc h)))
        (fun r hr1 hr2 => hsafe2 r hr1 hr2)
        (fun r hr1 hr2 => hblc r hr1 hr2)
    refine ⟨s2, m2, ?_, hm2, hframe3, hblank3⟩
    rw [List.foldlM_cons, hcg2]
    simpa [Except.bind] using hfold2

theorem processParent_ok (g : Table) (p j : Nat) :
    ∃ s2, processParent g j p = .ok s2 ∧
      ∀ a b, (b ≠ j ∨ isBlank (cellAt g a b) = false) →
        cellAt s2 a b = cellAt g a b := by
  obtain ⟨s2, m2, hfold, _, hframe, hblanks⟩ :=
    children_fold_ok g p j (find_children g p j) g p
      (fun c hc => find_children_mem g p j c hc)
      (find_children_pairwise g p j)
      (Nat.le_refl p)
      (fun a b _ => rfl)
      (fun r hr1 hr2 => absurd (Nat.lt_of_lt_of_le hr1 hr2) (Nat.lt_irrefl p))
      (fun r hr1 hr2 => absurd (Nat.lt_of_lt_of_le hr1 hr2) (Nat.lt_irrefl p))
  refine ⟨s2, hfold, ?_⟩
  intro a b hab
  by_cases hbj : b = j
  · subst hbj
    rcases hab with h | hnb
    · exact absurd rfl h
    · by_cases hz : a ≤ p
      · exact hframe a b (Or.inr (Or.inl hz))
      · by_cases hz2 : m2 < a
        · exact hframe a b (Or.inr (Or.inr hz2))
        · have hbt := hblanks a (Nat.lt_of_not_le hz) (Nat.le_of_not_lt hz2)
          rw [hnb] at hbt
          exact absurd hbt Bool.false_ne_true
  · exact hframe a b (Or.inl hbj)

theorem processColumn_ok (g : Table) (j : Nat) :
    ∃ s2, processColumn g j = .ok s2 ∧
      ∀ a b, (b ≠ j ∨ isBlank (cellAt g a b) = false) →
        cellAt s2 a b = cellAt g a b := by
  exact foldlM_ok_of_inv
    (fun s => ∀ a b, (b ≠ j ∨ isBlank (cellAt g a b) = false) →
      cellAt s a b = cellAt g a b)
    (fun acc p => processParent acc j p)
    (find_parents g j)
    (by
      intro s p _ hs
      obtain ⟨s2, hpp, hframe⟩ := processParent_ok s p j
      refine ⟨s2, hpp, ?_⟩
      intro a b hab
      rcases hab with h | h
      · rw [hframe a b (Or.inl h)]
        exact hs a b (Or.inl h)
      · have heq : cellAt s a b = cellAt g a b := hs a b (Or.inr h)
        rw [hframe a b (Or.inr (by rw [heq]; exact h)), heq])
    g (fun a b _ => rfl)

theorem connectAll_ok (g : Table) :
    ∃ s2, connectAll g = .ok s2 ∧
      ∀ a b, isBlank (cellAt g a b) = false → cellAt s2 a b = cellAt g a b := by
  unfold connectAll
  exact foldlM_ok_of_inv
    (fun s => ∀ a b, isBlank (cellAt g a b) = false →
      cellAt s a b = cellAt g a b)
    (fun acc j => processColumn acc j)
    (List.range ((g.getD 0 []).length - 1))
    (by
      intro s j _ hs
      obtain ⟨s2, hpc, hframe⟩ := processColumn_ok s j
      refine ⟨s2, hpc, ?_⟩
      intro a b hab
      have heq : cellAt s a b = cellAt g a b := hs a b hab
      rw [hframe a b (Or.inr (by rw [heq]; exact hab)), heq])
    g (fun a b _ => rfl)


/-! ## Which errors tabularization can produce -/

theorem exc_bind_error {α β : Type} (e : RenderError)
    (k : α → Except RenderError β) :
    ((Except.error e : Except RenderError α) >>= k) = .error e := rfl

theorem exc_bind_ok {α β : Type} (a : α) (k : α → Except RenderError β) :
    ((Except.ok a : Except RenderError α) >>= k) = k a := rfl

mutual

theorem tab_err_mem (t : TreeObject) (sm : Bool) (e : RenderError)
    (h : tabularize_tree t sm = .error e) :
    e = .emptyScalar ∨ e = .unsupportedType ∨ e = .maxEmpty := by
  match t with
  | .int n => simp [tabularize_tree] at h
  | .bool b => simp [tabularize_tree] at h
  | .str s =>
    by_cases hb : isBlank s
    · simp [tabularize_tree, hb] at h
      exact Or.inl h.symm
    · simp [tabularize_tree, hb] at h
  | .list items =>
    by_cases hs : sm
    · rw [show tabularize_tree (.list items) sm = tabListSimple items sm by
        simp [tabularize_tree, hs]] at h
      exact tabListSimple_err_mem items sm e h
    · rw [show tabularize_tree (.list items) sm = tabListIndexed items sm 0 by
        simp [tabularize_tree, hs]] at h
      exact tabListIndexed_err_mem items sm 0 e h
  | .dict entries =>
    rw [show tabularize_tree (.dict entries) sm =
        (tabDict entries sm >>= fun cells =>
          if cells.length = 0 then .error .maxEmpty
          else
            let m := cells.foldl (fun acc row => max acc row.length) 0
            .ok (cells.map
              (fun row => row ++ List.replicate (m - row.length) EMPTY_CELL)))
        from rfl] at h
    cases hd : tabDict entries sm with
    | error e2 =>
      rw [hd, exc_bind_error] at h
      cases h
      exact tabDict_err_mem entries sm e hd
    | ok cells =>
      rw [hd, exc_bind_ok] at h
      by_cases hlen : cells.length = 0
      · rw [if_pos hlen] at h
        cases h
        exact Or.inr (Or.inr rfl)
      · rw [if_neg hlen] at h
        simp at h
  | .null =>
    simp [tabularize_tree] at h
    exact Or.inr (Or.inl h.symm)

theorem tabListSimple_err_mem (items : List TreeObject) (sm : Bool)
    (e : RenderError) (h : tabListSimple items sm = .error e) :
    e = .emptyScalar ∨ e = .unsupportedType ∨ e = .maxEmpty := by
  match items with
  | [] => simp [tabListSimple] at h
  | oi :: rest =>
    rw [show tabListSimple (oi :: rest) sm =
        (tabularize_tree oi sm >>= fun t =>
          tabListSimple rest sm >>= fun r => .ok (t ++ r)) from rfl] at h
    cases h1 : tabularize_tree oi sm with
    | error e1 =>
      rw [h1, exc_bind_error] at h
      cases h
      exact tab_err_mem oi sm e h1
    | ok t1 =>
      rw [h1, exc_bind_ok] at h
      cases h2 : tabListSimple rest sm with
      | error e2 =>
        rw [h2, exc_bind_error] at h
        cases h
        exact tabListSimple_err_mem rest sm e h2
      | ok t2 =>
        rw [h2, exc_bind_ok] at h
        simp at h

theorem tabListIndexed_err_mem (items : List TreeObject) (sm : Bool)
    (i : Nat) (e : RenderError) (h : tabListIndexed items sm i = .error e) :
    e = .emptyScalar ∨ e = .unsupportedType ∨ e = .maxEmpty := by
  match items with
  | [] => simp [tabListIndexed] at h
  | oi :: rest =>
    rw [show tabListIndexed (oi :: rest) sm i =
        (tabularize_tree oi sm >>= fun t =>
          tabListIndexed rest sm (i + 1) >>= fun r =>
            .ok (([[(toString i).data]] ++
              t.map (fun row => EMPTY_CELL :: row)) ++ r)) from rfl] at h
    cases h1 : tabularize_tree oi sm with
    | error e1 =>
      rw [h1, exc_bind_error] at h
      cases h
      exact tab_err_mem oi sm e h1
    | ok t1 =>
      rw [h1, exc_bind_ok] at h
      cases h2 : tabListIndexed rest sm (i + 1) with
      | error e2 =>
        rw [h2, exc_bind_error] at h
        cases h
        exact tabListIndexed_err_mem rest sm (i + 1) e h2
      | ok t2 =>
        rw [h2, exc_bind_ok] at h
        simp at h

theorem tabDict_err_mem (entries : List (Cell × TreeObject)) (sm : Bool)
    (e : RenderError) (h : tabDict entries sm = .error e) :
    e = .emptyScalar ∨ e = .unsupportedType ∨ e = .maxEmpty := by
  match entries with
  | [] => simp [tabDict] at h
  | (parent, children) :: rest =>
    rw [show tabDict ((parent, children) :: rest) sm =
        (tabularize_tree children sm >>= fun t =>
          tabDict rest sm >>= fun r =>
            .ok (([[parent]] ++
              t.map (fun row => EMPTY_CELL :: row)) ++ r)) from rfl] at h
    cases h1 : tabularize_tree children sm with
    | error e1 =>
      rw [h1, exc_bind_error] at h
      cases h
      exact tab_err_mem children sm e h1
    | ok t1 =>
      rw [h1, exc_bind_ok] at h
      cases h2 : tabDict rest sm with
      | error e2 =>
        rw [h2, exc_bind_error] at h
        cases h
        exact tabDict_err_mem rest sm e h2
      | ok t2 =>
        rw [h2, exc_bind_ok] at h
        simp at h

end

/-! ## Trees containing a failing node never tabularize -/

theorem isError_bind {α β : Type} (x : Except RenderError α)
    (k : α → Except RenderError β) (h : isError x = true) :
    isError (x >>= k) = true := by
  cases x with
  | error e => rfl
  | ok a => simp [isError] at h

mutual

theorem containsWhere_tab_err (P : TreeObject → Bool)
    (hP : ∀ u sm2, P u = true → isError (tabularize_tree u sm2) = true)
    (t : TreeObject) (sm : Bool) (h : containsWhere P t = true) :
    isError (tabularize_tree t sm) = true := by
  match t with
  | .int n => exact hP (.int n) sm h
  | .bool b => exact hP (.bool b) sm h
  | .str s => exact hP (.str s) sm h
  | .null => exact hP .null sm h
  | .list items =>
    rcases Bool.or_eq_true_iff.mp h with h2 | h2
    · exact hP (.list items) sm h2
    · by_cases hs : sm
      · rw [show tabularize_tree (.list items) sm = tabListSimple items sm by
          simp [tabularize_tree, hs]]
        exact containsWhereList_tab_err P hP items sm h2
      · rw [show tabularize_tree (.list items) sm =
            tabListIndexed items sm 0 by simp [tabularize_tree, hs]]
        exact containsWhereIndexed_tab_err P hP items sm 0 h2
  | .dict entries =>
    rcases Bool.or_eq_true_iff.mp h with h2 | h2
    · exact hP (.dict entries) sm h2
    · have hde := containsWhereDict_tab_err P hP entries sm h2
      rw [show tabularize_tree (.dict entries) sm =
          (tabDict entries sm >>= fun cells =>
            if cells.length = 0 then .error .maxEmpty
            else
              let m := cells.foldl (fun acc row => max acc row.length) 0
              .ok (cells.map (fun row =>
                row ++ List.replicate (m - row.length) EMPTY_CELL)))
          from rfl]
      exact isError_bind _ _ hde

theorem containsWhereList_tab_err (P : TreeObject → Bool)
    (hP : ∀ u sm2, P u = true → isError (tabularize_tree u sm2) = true)
    (items : List TreeObject) (sm : Bool)
    (h : containsWhereList P items = true) :
    isError (tabListSimple items sm) = true := by
  match items with
  | [] => simp [containsWhereList] at h
  | oi :: rest =>
    rw [show tabListSimple (oi :: rest) sm =
        (tabularize_tree oi sm >>= fun t =>
          tabListSimple rest sm >>= fun r => .ok (t ++ r)) from rfl]
    rcases Bool.or_eq_true_iff.mp h with h2 | h2
    · exact isError_bind _ _ (containsWhere_tab_err P hP oi sm h2)
    · cases h1 : tabularize_tree oi sm with
      | error e => rfl
      | ok t1 =>
        rw [exc_bind_ok]
        exact isError_bind _ _ (containsWhereList_tab_err P hP rest sm h2)

theorem containsWhereIndexed_tab_err (P : TreeObject → Bool)
    (hP : ∀ u sm2, P u = true → isError (tabularize_tree u sm2) = true)
    (items : List TreeObject) (sm : Bool) (i : Nat)
    (h : containsWhereList P items = true) :
    isError (tabListIndexed items sm i) = true := by
  match items with
  | [] => simp [containsWhereList] at h
  | oi :: rest =>
    rw [show tabListIndexed (oi :: rest) sm i =
        (tabularize_tree oi sm >>= fun t =>
          tabListIndexed rest sm (i + 1) >>= fun r =>
            .ok (([[(toString i).data]] ++
              t.map (fun row => EMPTY_CELL :: row)) ++ r)) from rfl]
    rcases Bool.or_eq_true_iff.mp h with h2 | h2
    · exact isError_bind _ _ (containsWhere_tab_err P hP oi sm h2)
    · cases h1 : tabularize_tree oi sm with
      | error e => rfl
      | ok t1 =>
        rw [exc_bind_ok]
        exact isError_bind _ _
          (containsWhereIndexed_tab_err P hP rest sm (i + 1) h2)

theorem containsWhereDict_tab_err (P : TreeObject → Bool)
    (hP : ∀ u sm2, P u = true → isError (tabularize_tree u sm2) = true)
    (entries : List (Cell × TreeObject)) (sm : Bool)
    (h : containsWhereDict P entries = true) :
    isError (tabDict entries sm) = true := by
  match entries with
  | [] => simp [containsWhereDict] at h
  | (parent, children) :: rest =>
    rw [show tabDict ((parent, children) :: rest) sm =
        (tabularize_tree children sm >>= fun t =>
          tabDict rest sm >>= fun r =>
            .ok (([[parent]] ++
              t.map (fun row => EMPTY_CELL :: row)) ++ r)) from rfl]
    rcases Bool.or_eq_true_iff.mp h with h2 | h2
    · exact isError_bind _ _ (containsWhere_tab_err P hP children sm h2)
    · cases h1 : tabularize_tree children sm with
      | error e => rfl
      | ok t1 =>
        rw [exc_bind_ok]
        exact isError_bind _ _ (containsWhereDict_tab_err P hP rest sm h2)

end

/-- `repr_tree` when `len(tree_object)` is defined. -/
theorem repr_tree_eq_of_pyLen_some (t : TreeObject) (sm : Bool) (n : Nat)
    (hp : pyLen t = some n) :
    repr_tree t sm =
      if n ≠ 1 then .error .missingRoot
      else
        (tabularize_tree t sm >>= fun cells =>
          if cells.length = 1 then .ok (String.mk (cellAt cells 0 0))
          else
            (fit_column_width cells >>= fun c2 =>
              connectAll c2 >>= fun c3 => .ok (joinRows c3))) := by
  unfold repr_tree
  rw [hp]

/-- `repr_tree` when `len(tree_object)` raises `TypeError`. -/
theorem repr_tree_eq_of_pyLen_none (t : TreeObject) (sm : Bool)
    (hp : pyLen t = none) : repr_tree t sm = .error .lenTypeError := by
  unfold repr_tree
  rw [hp]

/-- A failing tabularization makes the whole render fail. -/
theorem isError_repr_tree_of_tab (t : TreeObject) (sm : Bool)
    (h : isError (tabularize_tree t sm) = true) :
    isError (repr_tree t sm) = true := by
  cases hp : pyLen t with
  | none => rw [repr_tree_eq_of_pyLen_none t sm hp]; rfl
  | some n =>
    rw [repr_tree_eq_of_pyLen_some t sm n hp]
    by_cases hn : n ≠ 1
    · rw [if_pos hn]
      rfl
    · rw [if_neg hn]
      exact isError_bind _ _ h

/-! ## Facts about `fit_column_width` -/

theorem foldl_max_init_le {α : Type} (f : α → Nat) :
    ∀ (l : List α) (init : Nat),
      init ≤ l.foldl (fun acc y => max acc (f y)) init := by
  intro l
  induction l with
  | nil => intro init; exact Nat.le_refl init
  | cons a l ih =>
    intro init
    exact Nat.le_trans (Nat.le_max_left init (f a)) (ih (max init (f a)))

theorem foldl_max_le_of_mem {α : Type} (f : α → Nat) :
    ∀ (l : List α) (x : α), x ∈ l → ∀ init,
      f x ≤ l.foldl (fun acc y => max acc (f y)) init := by
  intro l
  induction l with
  | nil => intro x hx; simp at hx
  | cons a l ih =>
    intro x hx init
    rcases List.mem_cons.mp hx with h | h
    · subst h
      exact Nat.le_trans (Nat.le_max_right init (f x))
        (foldl_max_init_le f l (max init (f x)))
    · exact ih x h (max init (f a))

theorem colMax_ge (g : Table) (j : Nat) (row : Row) (hrow : row ∈ g) :
    (row.getD j []).length ≤ colMax g j :=
  foldl_max_le_of_mem (fun row => (row.getD j []).length) g row hrow 0

theorem ljust_length (s : Cell) (w : Nat) (hw : s.length ≤ w) :
    (ljust s w).length = w := by
  unfold ljust
  rw [List.length_append, List.length_replicate]
  omega

theorem fit_err (g : Table) (e : RenderError)
    (h : fit_column_width g = .error e) : e = .indexError := by
  unfold fit_column_width at h
  by_cases h0 : g.length = 0
  · rw [if_pos h0] at h
    cases h
    rfl
  · rw [if_neg h0] at h
    by_cases h1 : g.all (fun row => (g.getD 0 []).length ≤ row.length)
    · rw [if_pos h1] at h
      cases h
    · rw [if_neg h1] at h
      cases h
      rfl

theorem fit_ok_eq (g : Table) (g2 : Table) (h : fit_column_width g = .ok g2) :
    g.length ≠ 0 ∧
    (∀ row ∈ g, (g.getD 0 []).length ≤ row.length) ∧
    g2 = g.map (fun row =>
      (((List.range (g.getD 0 []).length).map (fun j => colMax g j)).zip
        row).map (fun p => ljust p.2 p.1)) := by
  unfold fit_column_width at h
  by_cases h0 : g.length = 0
  · rw [if_pos h0] at h
    cases h
  · rw [if_neg h0] at h
    by_cases h1 : g.all (fun row => (g.getD 0 []).length ≤ row.length)
    · rw [if_pos h1] at h
      cases h
      exact ⟨h0, fun row hrow => of_decide_eq_true (List.all_eq_true.mp h1 row hrow), rfl⟩
    · rw [if_neg h1] at h
      cases h

theorem fit_ok_cell (g g2 : Table) (h : fit_column_width g = .ok g2)
    (i j : Nat) (hi : i < g.length) (hj : j < (g.getD 0 []).length)
    (hrect : ∀ row ∈ g, row.length = (g.getD 0 []).length) :
    cellAt g2 i j = ljust (cellAt g i j) (colMax g j) := by
  obtain ⟨h0, hall, hg2⟩ := fit_ok_eq g g2 h
  subst hg2
  rw [cellAt_eq_getElem, cellAt_eq_getElem]
  rw [List.getElem?_map, List.getElem?_eq_getElem hi, Option.map_some',
    Option.getD_some]
  have hrowmem : g[i] ∈ g := List.getElem_mem hi
  have hrowlen : (g[i] : Row).length = (g.getD 0 []).length :=
    hrect g[i] hrowmem
  have hzlen : ((((List.range (g.getD 0 []).length).map
      (fun j => colMax g j)).zip (g[i] : Row))).length =
      (g.getD 0 []).length := by
    rw [List.length_zip, List.length_map, List.length_range, hrowlen]
    exact Nat.min_self _
  have hjz : j < ((((List.range (g.getD 0 []).length).map
      (fun j => colMax g j)).zip (g[i] : Row))).length := by
    rw [hzlen]; exact hj
  rw [List.getElem?_map, List.getElem?_eq_getElem hjz, Option.map_some',
    Option.getD_some, List.getElem_zip]
  have hjm : j < ((List.range (g.getD 0 []).length).map
      (fun j => colMax g j)).length := by
    rw [List.length_map, List.length_range]; exact hj
  have hji : j < (g[i] : Row).length := by rw [hrowlen]; exact hj
  have hw : ((List.range (g.getD 0 []).length).map
      (fun j => colMax g j))[j] = colMax g j := by
    rw [List.getElem_map]
    simp
  rw [hw]
  show ljust (g[i][j]) (colMax g j) =
    ljust (((some g[i]).getD [])[j]?.getD []) (colMax g j)
  rw [Option.getD_some, List.getElem?_eq_getElem hji, Option.getD_some]

theorem fit_ok_rect (g g2 : Table) (h : fit_column_width g = .ok g2) :
    g2.length = g.length ∧
    ∀ row ∈ g2, row.length = (g.getD 0 []).length := by
  obtain ⟨h0, hall, hg2⟩ := fit_ok_eq g g2 h
  subst hg2
  refine ⟨List.length_map g _, ?_⟩
  intro row hrow
  obtain ⟨row0, hrow0, hrow0eq⟩ := List.mem_map.mp hrow
  subst hrow0eq
  rw [List.length_map, List.length_zip, List.length_map, List.length_range]
  exact Nat.min_eq_left (hall row0 hrow0)

/-! ## The dict branch of tabularization always returns a rectangle -/

theorem tab_dict_rows_eq (entries : List (Cell × TreeObject)) (sm : Bool)
    (g : Table) (h : tabularize_tree (.dict entries) sm = .ok g) :
    ∀ r1 ∈ g, ∀ r2 ∈ g, r1.length = r2.length := by
  rw [show tabularize_tree (.dict entries) sm =
      (tabDict entries sm >>= fun cells =>
        if cells.length = 0 then .error .maxEmpty
        else
          let m := cells.foldl (fun acc row => max acc row.length) 0
          .ok (cells.map
            (fun row => row ++ List.replicate (m - row.length) EMPTY_CELL)))
      from rfl] at h
  cases hd : tabDict entries sm with
  | error e => rw [hd, exc_bind_error] at h; cases h
  | ok cells =>
    rw [hd, exc_bind_ok] at h
    by_cases hlen : cells.length = 0
    · rw [if_pos hlen] at h
      cases h
    · rw [if_neg hlen] at h
      cases h
      intro r1 h1 r2 h2
      obtain ⟨row1, hm1, he1⟩ := List.mem_map.mp h1
      obtain ⟨row2, hm2, he2⟩ := List.mem_map.mp h2
      subst he1
      subst he2
      have hb1 : row1.length ≤
          cells.foldl (fun acc row => max acc row.length) 0 :=
        foldl_max_le_of_mem List.length cells row1 hm1 0
      have hb2 : row2.length ≤
          cells.foldl (fun acc row => max acc row.length) 0 :=
        foldl_max_le_of_mem List.length cells row2 hm2 0
      rw [List.length_append, List.length_replicate,
        List.length_append, List.length_replicate]
      omega

/-! ## Which errors the whole render can produce -/

theorem repr_err_mem (t : TreeObject) (sm : Bool) (e : RenderError)
    (h : repr_tree t sm = .error e) :
    e = .lenTypeError ∨ e = .missingRoot ∨ e = .emptyScalar ∨
      e = .unsupportedType ∨ e = .maxEmpty ∨ e = .indexError := by
  cases hp : pyLen t with
  | none =>
    rw [repr_tree_eq_of_pyLen_none t sm hp] at h
    cases h
    exact Or.inl rfl
  | some n =>
    rw [repr_tree_eq_of_pyLen_some t sm n hp] at h
    by_cases hn : n ≠ 1
    · rw [if_pos hn] at h
      cases h
      exact Or.inr (Or.inl rfl)
    · rw [if_neg hn] at h
      cases h1 : tabularize_tree t sm with
      | error e1 =>
        rw [h1, exc_bind_error] at h
        cases h
        rcases tab_err_mem t sm e h1 with h2 | h2 | h2
        · exact Or.inr (Or.inr (Or.inl h2))
        · exact Or.inr (Or.inr (Or.inr (Or.inl h2)))
        · exact Or.inr (Or.inr (Or.inr (Or.inr (Or.inl h2))))
      | ok cells =>
        rw [h1, exc_bind_ok] at h
        by_cases hl : cells.length = 1
        · rw [if_pos hl] at h
          cases h
        · rw [if_neg hl] at h
          cases hf : fit_column_width cells with
          | error e2 =>
            rw [hf, exc_bind_error] at h
            cases h
            exact Or.inr (Or.inr (Or.inr (Or.inr (Or.inr
              (fit_err cells e hf)))))
          | ok g2 =>
            rw [hf, exc_bind_ok] at h
            obtain ⟨s2, hca, _⟩ := connectAll_ok g2
            rw [hca, exc_bind_ok] at h
            cases h

/-! ## When exactly the render reports a missing root -/

theorem repr_missingRoot_iff (t : TreeObject) (sm : Bool) :
    repr_tree t sm = .error .missingRoot ↔
      ((pyLen t).isSome = true ∧ pyLen t ≠ some 1) := by
  cases hp : pyLen t with
  | none =>
    rw [repr_tree_eq_of_pyLen_none t sm hp]
    constructor
    · intro h
      injection h with h2
      exact absurd h2 (by decide)
    · intro h
      simp at h
  | some n =>
    rw [repr_tree_eq_of_pyLen_some t sm n hp]
    by_cases hn : n ≠ 1
    · rw [if_pos hn]
      constructor
      · intro _
        exact ⟨rfl, fun hc => hn (by injection hc)⟩
      · intro _
        rfl
    · rw [if_neg hn]
      have hn1 : n = 1 := not_not.mp hn
      constructor
      · intro h
        exfalso
        cases h1 : tabularize_tree t sm with
        | error e1 =>
          rw [h1, exc_bind_error] at h
          cases h
          rcases tab_err_mem t sm _ h1 with h2 | h2 | h2 <;> exact absurd h2 (by decide)
        | ok cells =>
          rw [h1, exc_bind_ok] at h
          by_cases hl : cells.length = 1
          · rw [if_pos hl] at h
            cases h
          · rw [if_neg hl] at h
            cases hf : fit_column_width cells with
            | error e2 =>
              rw [hf, exc_bind_error] at h
              cases h
              have := fit_err cells _ hf
              exact absurd this (by decide)
            | ok g2 =>
              rw [hf, exc_bind_ok] at h
              obtain ⟨s2, hca, _⟩ := connectAll_ok g2
              rw [hca, exc_bind_ok] at h
              cases h
      · intro h2
        have hps : (some n : Option Nat) = some 1 := by rw [hn1]
        exact absurd hps h2.2

/-! ## The three node kinds on which tabularization itself fails -/

theorem isBlankStrNode_tab_err (u : TreeObject) (sm : Bool)
    (h : isBlankStrNode u = true) :
    isError (tabularize_tree u sm) = true := by
  cases u with
  | str s =>
    simp only [isBlankStrNode] at h
    rw [show tabularize_tree (.str s) sm =
        (if isBlank s then .error .emptyScalar else .ok [[s]]) from rfl,
      if_pos h]
    rfl
  | int n => simp [isBlankStrNode] at h
  | bool b => simp [isBlankStrNode] at h
  | list items => simp [isBlankStrNode] at h
  | dict entries => simp [isBlankStrNode] at h
  | null => simp [isBlankStrNode] at h

theorem isNullNode_tab_err (u : TreeObject) (sm : Bool)
    (h : isNullNode u = true) :
    isError (tabularize_tree u sm) = true := by
  cases u with
  | null => rfl
  | int n => simp [isNullNode] at h
  | bool b => simp [isNullNode] at h
  | str s => simp [isNullNode] at h
  | list items => simp [isNullNode] at h
  | dict entries => simp [isNullNode] at h

theorem isEmptyDictNode_tab_err (u : TreeObject) (sm : Bool)
    (h : isEmptyDictNode u = true) :
    isError (tabularize_tree u sm) = true := by
  cases u with
  | dict entries =>
    cases entries with
    | nil => rfl
    | cons kv rest => simp [isEmptyDictNode] at h
  | int n => simp [isEmptyDictNode] at h
  | bool b => simp [isEmptyDictNode] at h
  | str s => simp [isEmptyDictNode] at h
  | list items => simp [isEmptyDictNode] at h
  | null => simp [isEmptyDictNode] at h

/-! ## The claims -/

/-- C1 (amended): `repr_tree` fails with `MissingRoot` exactly when Python
`len(tree_object)` is defined and differs from `1` — so a one-entry dict, a
one-element list and a one-character string all pass the root check — and a
root without `len` (int/bool/None) fails with a `TypeError` instead.  The
check precedes tabularization: it depends only on `pyLen`. -/
theorem c1_theorem (t : TreeObject) (sm : Bool) :
    (repr_tree t sm = .error .missingRoot ↔
      ((pyLen t).isSome = true ∧ pyLen t ≠ some 1)) ∧
    (pyLen t = none → repr_tree t sm = .error .lenTypeError) :=
  ⟨repr_missingRoot_iff t sm, fun hp => repr_tree_eq_of_pyLen_none t sm hp⟩

/-- C1 witness: at the root `None`, the `len` branch of `c1_theorem` fires. -/
theorem c1_witness : repr_tree .null false = .error .lenTypeError :=
  (c1_theorem .null false).2 rfl

/-- C1 counterexample: the bare one-element list `["x"]` and the bare
one-character scalar `"x"` are rendered successfully, not rejected with
`MissingRoot` as the claim demands for every bare list or scalar root. -/
theorem c1_counterexample :
    repr_tree (.list [.str ['x']]) true = .ok "x" ∧
    repr_tree (.str ['x']) false = .ok "x" ∧
    repr_tree (.list [.str ['x']]) true ≠ .error .missingRoot := by
  refine ⟨rfl, rfl, fun hc => ?_⟩
  exact Except.noConfusion hc

/-- C2 (amended): rendering the dict mapping `root` to `leaf` in non-simple
mode yields exactly the two lines `root    ` and `└───leaf`: the parent row
contains `root`, and the child row begins with the corner glyph followed by
a run of horizontal glyphs padding the parent column, then `leaf` — not by
`leaf` immediately. -/
theorem c2_theorem :
    repr_tree (.dict [("root".data, .str "leaf".data)]) false =
      .ok "root    \n└───leaf" ∧
    ("root    \n└───leaf" : String) = "root    " ++ "\n" ++ "└───leaf" ∧
    ("root    " : String) = "root" ++ "    " ∧
    ("└───leaf" : String) = "└" ++ "───" ++ "leaf" ∧
    ("root    \n└───leaf").data.count '\n' = 1 := by
  exact ⟨rfl, by decide, by decide, by decide, by decide⟩

/-- C2 counterexample: in the rendered output the corner glyph is followed
by three horizontal glyphs, so the child row does not begin with `└`
immediately followed by `leaf`. -/
theorem c2_counterexample :
    repr_tree (.dict [("root".data, .str "leaf".data)]) false =
      .ok "root    \n└───leaf" ∧
    ("└───leaf").data.take 5 ≠ ("└" ++ "leaf").data := by
  exact ⟨rfl, by decide⟩

/-- C3 (amended): for every input that passes the root check and
tabularizes (hence passes the empty-scalar and type checks) and fits, the
connector phase succeeds — the `InvalidConnection`,
VERTICAL-over-HORIZONTAL and HORIZONTAL-over-non-empty internal errors are
never raised by the whole render — and it preserves every cell whose
content is non-blank.  (Cells holding blank-only mapping-key text are
treated as drawable and can be overwritten; see the counterexample.) -/
theorem c3_theorem (t : TreeObject) (sm : Bool) (g g2 : Table)
    (_hroot : pyLen t = some 1) (_htab : tabularize_tree t sm = .ok g)
    (_hfit : fit_column_width g = .ok g2) :
    connectAll g2 = .ok (okOr (connectAll g2) g2) ∧
    (∀ i j, isBlank (cellAt g2 i j) = false →
      cellAt (okOr (connectAll g2) g2) i j = cellAt g2 i j) ∧
    (∀ e, repr_tree t sm = .error e →
      e ≠ .invalidConnection ∧ e ≠ .vertOverHoriz ∧
        e ≠ .horizOverNonEmpty) := by
  obtain ⟨s2, hca, hpres⟩ := connectAll_ok g2
  have hok : okOr (connectAll g2) g2 = s2 := by rw [hca]; rfl
  refine ⟨by rw [hca]; rfl, fun i j hb => by rw [hok]; exact hpres i j hb,
    fun e he => ?_⟩
  rcases repr_err_mem t sm e he with h | h | h | h | h | h <;> subst h <;>
    exact ⟨by decide, by decide, by decide⟩

/-- C3 witness: the connector phase succeeds on the fitted table of the
accepted input mapping `a` to `b`. -/
theorem c3_witness :
    connectAll [[['a'], [' ']], [[' '], ['b']]] =
      .ok (okOr (connectAll [[['a'], [' ']], [[' '], ['b']]])
        [[['a'], [' ']], [[' '], ['b']]]) :=
  (c3_theorem (.dict [("a".data, .str "b".data)]) false
    [[['a'], []], [[], ['b']]] [[['a'], [' ']], [[' '], ['b']]]
    rfl rfl rfl).1

/-- C3 counterexample: the accepted input mapping `root` to the dict with
keys `a` and `" "` (a whitespace-only key, which no check rejects) places
the key text `" "` in cell (3,1) of the fitted table; the connector phase
overwrites that occupied cell with a vertical glyph. -/
theorem c3_counterexample :
    pyLen (.dict [("root".data,
      .dict [("a".data, .str "x".data), (" ".data, .str "y".data)])]) =
      some 1 ∧
    tabularize_tree (.dict [("root".data,
      .dict [("a".data, .str "x".data), (" ".data, .str "y".data)])]) false =
      .ok [[['r','o','o','t'], [], []], [[], ['a'], []], [[], [], ['x']],
        [[], [' '], []], [[], [], ['y']]] ∧
    fit_column_width [[['r','o','o','t'], [], []], [[], ['a'], []],
        [[], [], ['x']], [[], [' '], []], [[], [], ['y']]] =
      .ok [[['r','o','o','t'], [' '], [' ']],
        [[' ',' ',' ',' '], ['a'], [' ']],
        [[' ',' ',' ',' '], [' '], ['x']],
        [[' ',' ',' ',' '], [' '], [' ']],
        [[' ',' ',' ',' '], [' '], ['y']]] ∧
    cellAt [[['r','o','o','t'], [' '], [' ']],
        [[' ',' ',' ',' '], ['a'], [' ']],
        [[' ',' ',' ',' '], [' '], ['x']],
        [[' ',' ',' ',' '], [' '], [' ']],
        [[' ',' ',' ',' '], [' '], ['y']]] 3 1 = " ".data ∧
    connectAll [[['r','o','o','t'], [' '], [' ']],
        [[' ',' ',' ',' '], ['a'], [' ']],
        [[' ',' ',' ',' '], [' '], ['x']],
        [[' ',' ',' ',' '], [' '], [' ']],
        [[' ',' ',' ',' '], [' '], ['y']]] =
      .ok [[['r','o','o','t'], [' '], [' ']],
        [['└','─','─','─'], ['a'], [' ']],
        [[' ',' ',' ',' '], ['├'], ['x']],
        [[' ',' ',' ',' '], ['│'], [' ']],
        [[' ',' ',' ',' '], ['└'], ['y']]] ∧
    cellAt [[['r','o','o','t'], [' '], [' ']],
        [['└','─','─','─'], ['a'], [' ']],
        [[' ',' ',' ',' '], ['├'], ['x']],
        [[' ',' ',' ',' '], ['│'], [' ']],
        [[' ',' ',' ',' '], ['└'], ['y']]] 3 1 = "│".data := by
  exact ⟨rfl, rfl, rfl, rfl, rfl, rfl⟩

/-- C4 (confirmed): rendering the dict mapping `a` to the list `x`, `y`
in simple mode yields `a ` over `├x` over `└y`: the upper child row shows
the junction glyph (a vertical drawn over the earlier corner upgraded it)
and the last child row shows the corner glyph; no plain vertical and no
second corner appears. -/
theorem c4_theorem :
    repr_tree (.dict [("a".data, .list [.str "x".data, .str "y".data])])
      true = .ok "a \n├x\n└y" ∧
    ("a \n├x\n└y" : String) =
      "a " ++ "\n" ++ ("├" ++ "x") ++ "\n" ++ ("└" ++ "y") ∧
    ("a \n├x\n└y").data.count VERTICAL = 0 ∧
    ("a \n├x\n└y").data.count CORNER = 1 ∧
    ("a \n├x\n└y").data.count JUNCTION = 1 := by
  exact ⟨rfl, by decide, by decide, by decide, by decide⟩

/-- C5 (amended): whenever the top-level value is a Mapping, the outermost
tabularize call returns a table whose rows all have the same length — the
dict branch right-pads to the maximum row length.  (A top-level Sequence is
not padded; see the counterexample.) -/
theorem c5_theorem (entries : List (Cell × TreeObject)) (sm : Bool)
    (g : Table) (h : tabularize_tree (.dict entries) sm = .ok g) :
    ∀ r1 ∈ g, ∀ r2 ∈ g, r1.length = r2.length :=
  tab_dict_rows_eq entries sm g h

/-- C5 witness: both rows of the tabularization of the dict mapping `a`
to `b` have length two. -/
theorem c5_witness :
    (["a".data, ([] : Cell)] : Row).length =
      ([([] : Cell), "b".data] : Row).length :=
  c5_theorem [("a".data, .str "b".data)] false
    [["a".data, []], [[], "b".data]] rfl
    ["a".data, []] (by decide) [[], "b".data] (by decide)

/-- C5 counterexample: the outermost tabularize call on the top-level list
`["x"]` (non-simple mode) completes and returns a jagged table: its first
row has length one, its second length two.  Only the dict branch pads. -/
theorem c5_counterexample :
    tabularize_tree (.list [.str "x".data]) false =
      .ok [[['0']], [[], ['x']]] ∧
    (([[['0']], [[], ['x']]] : Table).getD 0 []).length = 1 ∧
    (([[['0']], [[], ['x']]] : Table).getD 1 []).length = 2 := by
  exact ⟨rfl, rfl, rfl⟩

/-- C6 (confirmed): on a rectangular table, `fit_column_width` left-
justifies every cell with space padding to its column's maximum input
length, so every cell of column `j` ends up with length `colMax g j` — in
particular all cells of a column have equal length. -/
theorem c6_theorem (g g2 : Table)
    (hrect : ∀ row ∈ g, row.length = (g.getD 0 []).length)
    (hfit : fit_column_width g = .ok g2) (i j : Nat)
    (hi : i < g.length) (hj : j < (g.getD 0 []).length) :
    cellAt g2 i j = ljust (cellAt g i j) (colMax g j) ∧
    (cellAt g2 i j).length = colMax g j := by
  have hc := fit_ok_cell g g2 hfit i j hi hj hrect
  refine ⟨hc, ?_⟩
  rw [hc]
  apply ljust_length
  have hrow : g.getD i [] ∈ g := by
    have hg : g.getD i [] = g[i] := by
      rw [List.getD_eq_getElem?_getD, List.getElem?_eq_getElem hi]
      rfl
    rw [hg]
    exact List.getElem_mem hi
  exact colMax_ge g j (g.getD i []) hrow

/-- C6 witness: cell (0,0) of a concrete rectangular table is left-
justified to its column's maximum length by `fit_column_width`. -/
theorem c6_witness :
    cellAt [[['a',' ',' '],['b','b']],[['c','c','c'],[' ',' ']]] 0 0 =
      ljust (cellAt [[['a'],['b','b']],[['c','c','c'],[]]] 0 0)
        (colMax [[['a'],['b','b']],[['c','c','c'],[]]] 0) ∧
    (cellAt [[['a',' ',' '],['b','b']],[['c','c','c'],[' ',' ']]] 0 0).length
      = colMax [[['a'],['b','b']],[['c','c','c'],[]]] 0 :=
  c6_theorem [[['a'],['b','b']],[['c','c','c'],[]]]
    [[['a',' ',' '],['b','b']],[['c','c','c'],[' ',' ']]]
    (by decide) rfl 0 0 (by decide) (by decide)

/-- C7 (amended): a tree containing an empty or all-whitespace string leaf
never tabularizes and never renders — the failure is `EmptyScalar` when the
blank leaf is the first failing value in traversal order, as for the dict
mapping `a` to the empty string — but an earlier-traversed unsupported
value or empty mapping can fail first with its own error. -/
theorem c7_theorem :
    (∀ (t : TreeObject) (sm : Bool), hasBlankStrLeaf t = true →
      isError (tabularize_tree t sm) = true ∧
      isError (repr_tree t sm) = true) ∧
    tabularize_tree (.dict [("a".data, .str [])]) false =
      .error .emptyScalar := by
  refine ⟨fun t sm h => ?_, rfl⟩
  have htab := containsWhere_tab_err isBlankStrNode isBlankStrNode_tab_err
    t sm h
  exact ⟨htab, isError_repr_tree_of_tab t sm htab⟩

/-- C7 witness: the bare all-whitespace scalar fails to tabularize and to
render. -/
theorem c7_witness :
    isError (tabularize_tree (.str " ".data) true) = true ∧
    isError (repr_tree (.str " ".data) true) = true :=
  c7_theorem.1 (.str " ".data) true (by decide)

/-- C7 counterexample: a tree that contains an empty string leaf but whose
traversal reaches a null value first fails with `UnsupportedType`, not
`EmptyScalar`. -/
theorem c7_counterexample :
    hasBlankStrLeaf (.dict [("r".data, .list [.null, .str []])]) = true ∧
    tabularize_tree (.dict [("r".data, .list [.null, .str []])]) false =
      .error .unsupportedType := by
  exact ⟨by decide, rfl⟩

/-- C8 (amended): a tree containing an unsupported (null) value never
tabularizes and never renders — the failure is `UnsupportedType` when the
null is the first failing value in traversal order, as for a bare null —
but an earlier-traversed blank leaf or empty mapping can fail first with
its own error. -/
theorem c8_theorem :
    (∀ (t : TreeObject) (sm : Bool), hasNullValue t = true →
      isError (tabularize_tree t sm) = true ∧
      isError (repr_tree t sm) = true) ∧
    tabularize_tree .null false = .error .unsupportedType := by
  refine ⟨fun t sm h => ?_, rfl⟩
  have htab := containsWhere_tab_err isNullNode isNullNode_tab_err t sm h
  exact ⟨htab, isError_repr_tree_of_tab t sm htab⟩

/-- C8 witness: a list holding a null value fails to tabularize and to
render. -/
theorem c8_witness :
    isError (tabularize_tree (.list [.null]) true) = true ∧
    isError (repr_tree (.list [.null]) true) = true :=
  c8_theorem.1 (.list [.null]) true (by decide)

/-- C8 counterexample: a tree that contains a null value but whose
traversal reaches an all-whitespace leaf first fails with `EmptyScalar`,
not `UnsupportedType`. -/
theorem c8_counterexample :
    hasNullValue (.dict [("a".data, .str " ".data), ("b".data, .null)]) =
      true ∧
    tabularize_tree
      (.dict [("a".data, .str " ".data), ("b".data, .null)]) false =
      .error .emptyScalar := by
  exact ⟨by decide, rfl⟩

/-- C9 (confirmed): rendering is deterministic — `repr_tree` is a pure
function of the tree and the mode, so equal inputs give identical results,
successes and failures alike. -/
theorem c9_theorem (t1 t2 : TreeObject) (sm1 sm2 : Bool)
    (ht : t1 = t2) (hs : sm1 = sm2) :
    repr_tree t1 sm1 = repr_tree t2 sm2 := by
  rw [ht, hs]

/-- C9 witness: two renders of the dict mapping `k` to `v` agree. -/
theorem c9_witness :
    repr_tree (.dict [("k".data, .str "v".data)]) false =
      repr_tree (.dict [("k".data, .str "v".data)]) false :=
  c9_theorem _ _ _ _ rfl rfl

/-- C10 (amended): a tree containing a mapping with zero entries never
tabularizes and never renders; when the empty mapping is the first failing
value in traversal order — as for the dict mapping `root` to the empty
dict — the error is the `max()`-over-empty-rows failure, which lies outside
the documented taxonomy, but an earlier-traversed blank leaf or null can
fail first with its in-taxonomy error. -/
theorem c10_theorem :
    (∀ (t : TreeObject) (sm : Bool), hasEmptyMapping t = true →
      isError (tabularize_tree t sm) = true ∧
      isError (repr_tree t sm) = true) ∧
    tabularize_tree (.dict [("root".data, .dict [])]) false =
      .error .maxEmpty ∧
    (RenderError.maxEmpty ≠ .emptyScalar ∧
      RenderError.maxEmpty ≠ .unsupportedType ∧
      RenderError.maxEmpty ≠ .missingRoot) := by
  refine ⟨fun t sm h => ?_, rfl, by decide, by decide, by decide⟩
  have htab := containsWhere_tab_err isEmptyDictNode isEmptyDictNode_tab_err
    t sm h
  exact ⟨htab, isError_repr_tree_of_tab t sm htab⟩

/-- C10 witness: the bare empty dict fails to tabularize and to render. -/
theorem c10_witness :
    isError (tabularize_tree (.dict []) true) = true ∧
    isError (repr_tree (.dict []) true) = true :=
  c10_theorem.1 (.dict []) true (by decide)

/-- C10 counterexample: a tree that contains an empty mapping but whose
traversal reaches an empty string leaf first fails with `EmptyScalar` —
an error inside the documented taxonomy, contradicting the claim that the
failure is always outside it. -/
theorem c10_counterexample :
    hasEmptyMapping (.dict [("a".data, .str []), ("b".data, .dict [])]) =
      true ∧
    tabularize_tree
      (.dict [("a".data, .str []), ("b".data, .dict [])]) true =
      .error .emptyScalar := by
  exact ⟨by decide, rfl⟩
